import Mathlib

/-!
# Verification of the GSC-IDE structural linter

Shallow embedding of `lint_script` (src/main.py, lines 938-1066): a
single-pass scanner over the document's lines that tracks an open-bracket
stack and string-literal mode, and reports unmatched brackets and
unterminated strings as diagnostics.

Representation notes:
* The Python list `stack` (appended/popped at the end) is modelled as a
  Lean `List` whose head is the Python list's last element (the stack
  top); the end-of-scan iteration over the Python list in push order is
  therefore `stack.reverse` here.
* `text.splitlines()` is modelled for the newline separator; the line
  and column arithmetic is exactly that of the source (`enumerate`
  starting at 1 for lines, `j` from 0 for columns).
* The Python method mutates the editor/console; those effects are
  modelled explicitly as an `IDEState` record threaded through
  `lint_script`.
-/

/-- One lint finding: `{'line': i, 'col': j, 'len': 1, 'msg': ...}` in the
source. -/
structure Diag where
  line : Nat
  col : Nat
  len : Nat
  msg : String
deriving DecidableEq, Repr

/-- The scanner-internal state: the open-bracket stack (head = top, i.e.
the end of the Python list) and the string-mode flags, mirroring the local
variables `stack`, `errors`, `in_string`, `string_char`,
`string_start_line`, `string_start_col` of `lint_script`. -/
structure ScanState where
  stack : List (Char × Nat × Nat)
  errors : List Diag
  inString : Bool
  stringChar : Option Char
  stringStartLine : Option Nat
  stringStartCol : Option Nat
deriving DecidableEq, Repr

def initState : ScanState :=
  { stack := [], errors := [], inString := false,
    stringChar := none, stringStartLine := none, stringStartCol := none }

/-- `pairs = \x7b'\x7d': '\x7b', ')': '(', ']': '['\x7d`. -/
def pairs : Char → Option Char
  | '\x7d' => some '\x7b'
  | ')' => some '('
  | ']' => some '['
  | _ => none

def unmatchedClosing (c : Char) : String :=
  "Unmatched closing \x27" ++ c.toString ++ "\x27"

def unmatchedOpening (c : Char) : String :=
  "Unmatched opening \x27" ++ c.toString ++ "\x27"

/-- One step of the scanner at character `ch`, position `(i, j)`, with
`prev` the preceding character on the same line (`none` at line start):
the body of the inner `while` loop of `lint_script`. -/
def scanChar (s : ScanState) (i j : Nat) (prev : Option Char) (ch : Char) : ScanState :=
  if (ch == '\"' || ch == '\x27') && prev != some '\\' then
    if !s.inString then
      { s with inString := true, stringChar := some ch,
               stringStartLine := some i, stringStartCol := some j }
    else if some ch == s.stringChar then
      { s with inString := false, stringChar := none,
               stringStartLine := none, stringStartCol := none }
    else s
  else if !s.inString then
    if ch == '\x7b' || ch == '(' || ch == '[' then
      { s with stack := (ch, i, j) :: s.stack }
    else if ch == '\x7d' || ch == ')' || ch == ']' then
      match s.stack with
      | [] => { s with errors := s.errors ++ [⟨i, j, 1, unmatchedClosing ch⟩] }
      | top :: rest =>
          if pairs ch == some top.1 then { s with stack := rest }
          else { s with errors := s.errors ++ [⟨i, j, 1, unmatchedClosing ch⟩] }
    else s
  else s

/-- The inner `while j < len(line)` loop, carrying the previous character
for the naive escape check. -/
def scanLineAux : Nat → ScanState → Nat → Option Char → List Char → ScanState
  | _, s, _, _, [] => s
  | i, s, j, prev, ch :: rest => scanLineAux i (scanChar s i j prev ch) (j + 1) (some ch) rest

/-- The outer `for i, line in enumerate(lines, start=1)` loop. -/
def scanLines : ScanState → Nat → List (List Char) → ScanState
  | s, _, [] => s
  | s, i, l :: ls => scanLines (scanLineAux i s 0 none l) (i + 1) ls

/-- `text.splitlines()`: split on newline separators, with no empty final
element for a trailing newline (accumulator is kept reversed). -/
def splitlinesAux : List Char → List Char → List (List Char)
  | cur, [] => [cur.reverse]
  | cur, c :: rest =>
      if c = '\n' then
        match rest with
        | [] => [cur.reverse]
        | d :: rest2 => cur.reverse :: splitlinesAux [] (d :: rest2)
      else splitlinesAux (c :: cur) rest

def splitlines : List Char → List (List Char)
  | [] => []
  | c :: rest => splitlinesAux [] (c :: rest)

/-- The scanner state after the whole document has been consumed. -/
def scanDoc (t : String) : ScanState :=
  scanLines initState 1 (splitlines t.data)

/-- End-of-scan diagnostics appended after the loops: the unterminated
string (if still in string mode), then every remaining opener in push
order.  `string_start_line` and `string_start_col` are always set
together in the source, so the `getD 0` defaults are never exercised
under the `isSome` guard. -/
def finishDiags (s : ScanState) : List Diag :=
  (if s.inString && s.stringStartLine.isSome then
      s.errors ++ [⟨s.stringStartLine.getD 0, s.stringStartCol.getD 0, 1,
                    "Unterminated string literal"⟩]
    else s.errors)
  ++ s.stack.reverse.map (fun e => ⟨e.2.1, e.2.2, 1, unmatchedOpening e.1⟩)

/-- The pure core of the linter: the ordered diagnostic sequence computed
by `lint_script` from the document text alone. -/
def lintDiags (t : String) : List Diag :=
  finishDiags (scanDoc t)

/-- The editor-side state mutated by `lint_script`: the error-console
contents and the diagnostics underlined in the editor (their translation
to absolute offsets is presentation glue outside the scanner). -/
structure IDEState where
  console : String
  selections : List Diag
deriving DecidableEq, Repr

def noIssuesHtml : String :=
  "<span style=\"color:#9bd39b;\">No lint issues found.</span>"

/-- The clickable HTML line rendered for one diagnostic. -/
def renderDiag (d : Diag) : String :=
  "<a href=\"pos:" ++ toString d.line ++ ":" ++ toString d.col
    ++ "\"><span style=\"color:#ff9b9b;\">[Ln " ++ toString d.line
    ++ ":Col " ++ toString d.col ++ "] " ++ d.msg ++ "</span></a>"

/-- `lint_script`: returns `True` when there is no current editor or no
diagnostics, otherwise renders the diagnostics and returns `False`.  The
editor text is `none` when `current_editor()` yields no editor. -/
def lint_script (editorText : Option String) (ide : IDEState) : Bool × IDEState :=
  match editorText with
  | none => (true, ide)
  | some t =>
      let errors := lintDiags t
      if errors.isEmpty then
        (true, { console := noIssuesHtml, selections := [] })
      else
        (false, { console := String.intercalate "<br>" (errors.map renderDiag),
                  selections := errors })

/-- Fuel-indexed inner loop: consumes one unit of fuel per character and
returns the remaining fuel, `none` on exhaustion. -/
def scanLineFuel : Nat → Nat → ScanState → Nat → Option Char → List Char → Option (ScanState × Nat)
  | fuel, _, s, _, _, [] => some (s, fuel)
  | 0, _, _, _, _, _ :: _ => none
  | fuel + 1, i, s, j, prev, ch :: rest =>
      scanLineFuel fuel i (scanChar s i j prev ch) (j + 1) (some ch) rest

/-- Fuel-indexed outer loop. -/
def scanLinesFuel : Nat → Nat → ScanState → List (List Char) → Option ScanState
  | _, _, s, [] => some s
  | fuel, i, s, l :: ls =>
      match scanLineFuel fuel i s 0 none l with
      | none => none
      | some (s2, fuel2) => scanLinesFuel fuel2 (i + 1) s2 ls

/-- Fuel-indexed linter: a scan that is only allowed `fuel` character
steps in total. -/
def lintFuel (fuel : Nat) (t : String) : Option (List Diag) :=
  match scanLinesFuel fuel 1 initState (splitlines t.data) with
  | none => none
  | some s => some (finishDiags s)

/-- Position sanity maintained by the scan: every recorded line number
(in emitted errors, stack entries, and the string start) is at least 1. -/
def linesOK (s : ScanState) : Prop :=
  (∀ d ∈ s.errors, 1 ≤ d.line) ∧ (∀ e ∈ s.stack, 1 ≤ e.2.1)
    ∧ (∀ l, s.stringStartLine = some l → 1 ≤ l)

/-- Every error emitted during the character loop is an unmatched-closing
diagnostic. -/
def errsClosing (s : ScanState) : Prop :=
  ∀ d ∈ s.errors, ∃ c, d.msg = unmatchedClosing c

/-- Total number of characters the scan visits: the newline separators
removed by `splitlines` are never visited. -/
def sumLens (ls : List (List Char)) : Nat := (ls.map List.length).sum

/-- Case analysis on one scanner step: the errors list either stays put or
gains one closing-bracket diagnostic at `(i, j)`; the stack either stays
put, gains the current character, or loses a matching top; the recorded
string start is kept, set to the current line, or cleared. -/
theorem scanChar_shape (s : ScanState) (i j : Nat) (prev : Option Char) (ch : Char) :
    ((scanChar s i j prev ch).errors = s.errors
      ∨ ((ch = '\x7d' ∨ ch = ')' ∨ ch = ']')
          ∧ (scanChar s i j prev ch).errors = s.errors ++ [⟨i, j, 1, unmatchedClosing ch⟩]))
    ∧ ((scanChar s i j prev ch).stack = s.stack
      ∨ (scanChar s i j prev ch).stack = (ch, i, j) :: s.stack
      ∨ ∃ top rest, s.stack = top :: rest ∧ pairs ch = some top.1
          ∧ (scanChar s i j prev ch).stack = rest)
    ∧ ((scanChar s i j prev ch).stringStartLine = s.stringStartLine
      ∨ (scanChar s i j prev ch).stringStartLine = some i
      ∨ (scanChar s i j prev ch).stringStartLine = none) := by
  unfold scanChar
  split
  · split
    · simp
    · split <;> simp
  · split
    · split
      · simp
      · split
        · rename_i hcl
          have hd : ch = '\x7d' ∨ ch = ')' ∨ ch = ']' := by
            simpa [or_assoc] using hcl
          split
          · exact ⟨Or.inr ⟨hd, by simp⟩, Or.inl (by simp), Or.inl (by simp)⟩
          · rename_i top rest hst
            split
            · rename_i hp
              refine ⟨Or.inl (by simp), Or.inr (Or.inr ⟨top, rest, hst, ?_, by simp⟩),
                Or.inl (by simp)⟩
              simpa using hp
            · exact ⟨Or.inr ⟨hd, by simp⟩, Or.inl (by simp), Or.inl (by simp)⟩
        · simp
    · simp

/-- Invariant propagation through one line of the scan. -/
theorem scanLineAux_inv (P : ScanState → Prop) (i : Nat)
    (hstep : ∀ s j prev ch, P s → P (scanChar s i j prev ch)) :
    ∀ l s j prev, P s → P (scanLineAux i s j prev l) := by
  intro l
  induction l with
  | nil => intro s j prev h; exact h
  | cons ch rest ih =>
      intro s j prev h
      exact ih (scanChar s i j prev ch) (j + 1) (some ch) (hstep s j prev ch h)

/-- Invariant propagation through the whole scan (line numbers start at 1
and only grow). -/
theorem scanLines_inv (P : ScanState → Prop)
    (hstep : ∀ s i j prev ch, 1 ≤ i → P s → P (scanChar s i j prev ch)) :
    ∀ ls i s, 1 ≤ i → P s → P (scanLines s i ls) := by
  intro ls
  induction ls with
  | nil => intro i s _ h; exact h
  | cons l rest ih =>
      intro i s hi h
      exact ih (i + 1) _ (Nat.le_succ_of_le hi)
        (scanLineAux_inv P i (fun s j prev ch hs => hstep s i j prev ch hi hs) l s 0 none h)

theorem length_unmatchedOpening (c : Char) : (unmatchedOpening c).length = 21 := by
  unfold unmatchedOpening
  rw [String.length_append, String.length_append]
  simp [Char.toString, String.length]

theorem length_unmatchedClosing (c : Char) : (unmatchedClosing c).length = 21 := by
  unfold unmatchedClosing
  rw [String.length_append, String.length_append]
  simp [Char.toString, String.length]

theorem unmatchedOpening_ne_unterminated (c : Char) :
    unmatchedOpening c ≠ "Unterminated string literal" := by
  intro h
  have := length_unmatchedOpening c
  rw [h] at this
  simp [String.length] at this

theorem unmatchedClosing_ne_unterminated (c : Char) :
    unmatchedClosing c ≠ "Unterminated string literal" := by
  intro h
  have := length_unmatchedClosing c
  rw [h] at this
  simp [String.length] at this

theorem scanChar_linesOK (s : ScanState) (i j : Nat) (prev : Option Char) (ch : Char)
    (hi : 1 ≤ i) (h : linesOK s) : linesOK (scanChar s i j prev ch) := by
  obtain ⟨he, hs, hl⟩ := h
  obtain ⟨hE, hS, hL⟩ := scanChar_shape s i j prev ch
  refine ⟨?_, ?_, ?_⟩
  · rcases hE with hE | ⟨_, hE⟩ <;> rw [hE]
    · exact he
    · intro d hd
      rcases List.mem_append.1 hd with hd | hd
      · exact he d hd
      · simp at hd; subst hd; exact hi
  · rcases hS with hS | hS | ⟨top, rest, hst, _, hS⟩ <;> rw [hS]
    · exact hs
    · intro e hee
      rcases List.mem_cons.1 hee with hee | hee
      · subst hee; exact hi
      · exact hs e hee
    · intro e hee
      exact hs e (by rw [hst]; exact List.mem_cons_of_mem top hee)
  · rcases hL with hL | hL | hL <;> rw [hL]
    · exact hl
    · intro l hll; injection hll with hll; omega
    · intro l hll; cases hll

theorem scanDoc_linesOK (t : String) : linesOK (scanDoc t) := by
  refine scanLines_inv linesOK
    (fun s i j prev ch hi hs => scanChar_linesOK s i j prev ch hi hs)
    (splitlines t.data) 1 initState (le_refl 1) ?_
  refine ⟨?_, ?_, ?_⟩ <;> simp [initState]

theorem scanChar_errsClosing (s : ScanState) (i j : Nat) (prev : Option Char) (ch : Char)
    (h : errsClosing s) : errsClosing (scanChar s i j prev ch) := by
  obtain ⟨hE, _, _⟩ := scanChar_shape s i j prev ch
  rcases hE with hE | ⟨_, hE⟩ <;> rw [errsClosing, hE]
  · exact h
  · intro d hd
    rcases List.mem_append.1 hd with hd | hd
    · exact h d hd
    · simp at hd; subst hd; exact ⟨ch, rfl⟩

theorem scanDoc_errsClosing (t : String) : errsClosing (scanDoc t) := by
  refine scanLines_inv errsClosing
    (fun s i j prev ch _ hs => scanChar_errsClosing s i j prev ch hs)
    (splitlines t.data) 1 initState (le_refl 1) ?_
  intro d hd
  simp [initState] at hd

theorem splitlinesAux_sumLens (cs : List Char) :
    ∀ cur, sumLens (splitlinesAux cur cs) ≤ cur.length + cs.length := by
  induction cs with
  | nil => intro cur; simp [splitlinesAux, sumLens]
  | cons c rest ih =>
      intro cur
      by_cases hc : c = '\n'
      · subst hc
        cases rest with
        | nil => simp [splitlinesAux, sumLens]
        | cons d rest2 =>
            have h := ih []
            rw [splitlinesAux.eq_def]
            simp [sumLens] at h ⊢
            omega
      · rw [splitlinesAux.eq_def]
        have h := ih (c :: cur)
        simp [sumLens, hc] at h ⊢
        omega

theorem splitlines_sumLens (cs : List Char) : sumLens (splitlines cs) ≤ cs.length := by
  cases cs with
  | nil => simp [splitlines, sumLens]
  | cons c rest => simpa using splitlinesAux_sumLens (c :: rest) []

theorem scanLineFuel_eq (i : Nat) :
    ∀ (l : List Char) (fuel : Nat) (s : ScanState) (j : Nat) (prev : Option Char),
      l.length ≤ fuel →
      scanLineFuel fuel i s j prev l = some (scanLineAux i s j prev l, fuel - l.length) := by
  intro l
  induction l with
  | nil => intro fuel s j prev _; simp [scanLineFuel, scanLineAux]
  | cons ch rest ih =>
      intro fuel s j prev h
      cases fuel with
      | zero => simp at h
      | succ f =>
          have hf : rest.length ≤ f := by simpa using h
          simp only [scanLineFuel, scanLineAux]
          rw [ih f (scanChar s i j prev ch) (j + 1) (some ch) hf]
          simp [Nat.succ_sub_succ]

theorem scanLinesFuel_eq :
    ∀ (ls : List (List Char)) (fuel : Nat) (i : Nat) (s : ScanState),
      sumLens ls ≤ fuel → scanLinesFuel fuel i s ls = some (scanLines s i ls) := by
  intro ls
  induction ls with
  | nil => intro fuel i s _; simp [scanLinesFuel, scanLines]
  | cons l rest ih =>
      intro fuel i s h
      have hsum : l.length + sumLens rest ≤ fuel := by simpa [sumLens] using h
      simp only [scanLinesFuel, scanLines]
      rw [scanLineFuel_eq i l fuel s 0 none (by omega)]
      exact ih (fuel - l.length) (i + 1) (scanLineAux i s 0 none l) (by omega)

example : lintDiags "" = [] := by decide
example : lintDiags "()" = [] := by decide
example : lintDiags "(]" =
    [⟨1, 1, 1, unmatchedClosing ']'⟩, ⟨1, 0, 1, unmatchedOpening '('⟩] := by decide
example : lintDiags "\x7b[(" =
    [⟨1, 0, 1, unmatchedOpening '\x7b'⟩, ⟨1, 1, 1, unmatchedOpening '['⟩,
     ⟨1, 2, 1, unmatchedOpening '('⟩] := by decide
example : lintDiags "\"a\" + \"b\"" = [] := by decide
example : lintDiags "\"abc\n(\x7b[)\nxyz" = [⟨1, 0, 1, "Unterminated string literal"⟩] := by
  decide
example : lintDiags "\"a\\\\\"" = [⟨1, 0, 1, "Unterminated string literal"⟩] := by decide
example : lintFuel 3 "(]x" = some (lintDiags "(]x") := by decide
example : lintFuel 2 "(]x" = none := by decide

/-- C1: when the scanner meets a closing bracket outside a string, a
matching stack top is popped with no diagnostic; otherwise one
"Unmatched closing" diagnostic is emitted at `(line, col)` with length 1
and the stack (including its top) is left completely unchanged. -/
theorem claim1_closer_step (s : ScanState) (i j : Nat) (prev : Option Char) (ch : Char)
    (hstr : s.inString = false) (hch : ch = '\x7d' ∨ ch = ')' ∨ ch = ']') :
    scanChar s i j prev ch =
      match s.stack with
      | [] => { s with errors := s.errors ++ [⟨i, j, 1, unmatchedClosing ch⟩] }
      | top :: rest =>
          if pairs ch = some top.1 then { s with stack := rest }
          else { s with errors := s.errors ++ [⟨i, j, 1, unmatchedClosing ch⟩] } := by
  rcases hch with rfl | rfl | rfl <;>
    cases hs : s.stack <;>
      simp [scanChar, hstr, hs, beq_iff_eq]

/-- C1 witness: a `]` against a stack whose top is `(` emits one
unmatched-closing diagnostic and consumes nothing. -/
theorem claim1_closer_step_w :
    scanChar ⟨[('(', 1, 0)], [], false, none, none, none⟩ 1 1 (some '(') ']' =
      ⟨[('(', 1, 0)], [⟨1, 1, 1, unmatchedClosing ']'⟩], false, none, none, none⟩ := by
  have h := claim1_closer_step ⟨[('(', 1, 0)], [], false, none, none, none⟩ 1 1 (some '(') ']'
    rfl (Or.inr (Or.inr rfl))
  simpa using h

/-- C2: after the whole text is scanned, the diagnostics end with (in this
order) the loop errors, then one unterminated-string diagnostic if string
mode is still active, then one unmatched-opening diagnostic per remaining
stack entry in push order (`stack.reverse`, the stack head being the most
recent push); concretely, the three unmatched openers of `"\x7b[("` are
reported earliest-opened first. -/
theorem claim2_end_order :
    (∀ t : String, lintDiags t =
        (scanDoc t).errors
        ++ (if (scanDoc t).inString && (scanDoc t).stringStartLine.isSome then
              [⟨(scanDoc t).stringStartLine.getD 0, (scanDoc t).stringStartCol.getD 0, 1,
                "Unterminated string literal"⟩]
            else [])
        ++ (scanDoc t).stack.reverse.map (fun e => ⟨e.2.1, e.2.2, 1, unmatchedOpening e.1⟩))
    ∧ lintDiags "\x7b[(" =
        [⟨1, 0, 1, unmatchedOpening '\x7b'⟩, ⟨1, 1, 1, unmatchedOpening '['⟩,
         ⟨1, 2, 1, unmatchedOpening '('⟩] := by
  constructor
  · intro t
    unfold lintDiags finishDiags
    split <;> simp
  · decide

/-- C3 counterexample: the column recorded in a diagnostic is not 1-based;
for the input `"("` the unmatched-opening diagnostic points at the first
character of line 1 with column 0. -/
theorem claim3_column_not_one_based : ¬ (∀ d ∈ lintDiags "(", 1 ≤ d.col) := by decide

/-- C3 (amended): every diagnostic's line is 1-based (at least 1), while
its column is the 0-based character index within the line. -/
theorem claim3_line_one_based (t : String) (d : Diag) (hd : d ∈ lintDiags t) :
    1 ≤ d.line := by
  obtain ⟨he, hs, hl⟩ := scanDoc_linesOK t
  unfold lintDiags finishDiags at hd
  rcases List.mem_append.1 hd with hd | hd
  · by_cases hg : ((scanDoc t).inString && (scanDoc t).stringStartLine.isSome) = true
    · rw [if_pos hg] at hd
      rcases List.mem_append.1 hd with hd | hd
      · exact he d hd
      · simp at hd
        subst hd
        rw [Bool.and_eq_true] at hg
        obtain ⟨l, hl2⟩ := Option.isSome_iff_exists.1 hg.2
        simpa [hl2] using hl l hl2
    · rw [if_neg hg] at hd
      exact he d hd
  · obtain ⟨e, hee, hde⟩ := List.mem_map.1 hd
    rw [List.mem_reverse] at hee
    rw [← hde]
    exact hs e hee

/-- C3 witness: the line of the diagnostic produced for `"("` is at
least 1. -/
theorem claim3_line_one_based_w : 1 ≤ (Diag.mk 1 0 1 (unmatchedOpening '(')).line :=
  claim3_line_one_based "(" (Diag.mk 1 0 1 (unmatchedOpening '(')) (by decide)

/-- C4: a quote immediately preceded by a backslash on the same line
never changes string mode (and this check is non-transitive, so a quote
behind two backslashes stays escaped — concretely the document
quote-a-backslash-backslash-quote is still an unterminated string); a
quote of the other kind inside a string is inert; a quote matching the
open string's quote character exits string mode. -/
theorem claim4_quote_handling (s : ScanState) (i j : Nat) (prev : Option Char) (ch : Char)
    (hq : ch = '\"' ∨ ch = '\x27') :
    (prev = some '\\' → scanChar s i j prev ch = s)
    ∧ (prev ≠ some '\\' → s.inString = true → some ch ≠ s.stringChar →
        scanChar s i j prev ch = s)
    ∧ (prev ≠ some '\\' → s.inString = true → some ch = s.stringChar →
        scanChar s i j prev ch =
          { s with inString := false, stringChar := none,
                   stringStartLine := none, stringStartCol := none })
    ∧ lintDiags "\"a\\\\\"" = [⟨1, 0, 1, "Unterminated string literal"⟩] := by
  refine ⟨?_, ?_, ?_, by decide⟩
  · intro hp
    subst hp
    rcases hq with rfl | rfl <;> cases hin : s.inString <;> simp [scanChar, hin]
  · intro hp hin hne
    have hp2 : (prev != some '\\') = true := by
      simpa using hp
    have hne2 : (some ch == s.stringChar) = false := by
      simpa using hne
    rcases hq with rfl | rfl <;> simp [scanChar, hp2, hin, hne2]
  · intro hp hin heq
    have hp2 : (prev != some '\\') = true := by
      simpa using hp
    have heq2 : (some ch == s.stringChar) = true := by
      simpa using heq
    rcases hq with rfl | rfl <;> simp [scanChar, hp2, hin, heq2]

/-- C4 witness: inside a double-quoted string, an escaped double quote and
a single quote are inert, and an unescaped double quote closes it. -/
theorem claim4_quote_handling_w :
    scanChar ⟨[], [], true, some '\"', some 1, some 0⟩ 1 4 (some '\\') '\"' =
      ⟨[], [], true, some '\"', some 1, some 0⟩
    ∧ scanChar ⟨[], [], true, some '\"', some 1, some 0⟩ 1 4 (some 'x') '\x27' =
      ⟨[], [], true, some '\"', some 1, some 0⟩
    ∧ scanChar ⟨[], [], true, some '\"', some 1, some 0⟩ 1 4 (some 'x') '\"' =
      ⟨[], [], false, none, none, none⟩ :=
  ⟨(claim4_quote_handling _ 1 4 (some '\\') '\"' (Or.inl rfl)).1 rfl,
   by
     have h := (claim4_quote_handling ⟨[], [], true, some '\"', some 1, some 0⟩ 1 4
       (some 'x') '\x27' (Or.inr rfl)).2.1 (by decide) rfl (by decide)
     exact h,
   by
     have h := (claim4_quote_handling ⟨[], [], true, some '\"', some 1, some 0⟩ 1 4
       (some 'x') '\"' (Or.inl rfl)).2.2.1 (by decide) rfl rfl
     simpa using h⟩

/-- C5: while string mode is active, every character (bracket characters
included) is absorbed — no stack push or pop and no diagnostic — and the
mode is carried across line boundaries unchanged; concretely a string
opened on line 1 and never closed silently swallows the brackets of
line 2, leaving only the unterminated-string diagnostic. -/
theorem claim5_string_absorbs :
    (∀ (s : ScanState) (i j : Nat) (prev : Option Char) (ch : Char), s.inString = true →
        (scanChar s i j prev ch).stack = s.stack ∧ (scanChar s i j prev ch).errors = s.errors)
    ∧ lintDiags "\"abc\n(\x7b[)\nxyz" = [⟨1, 0, 1, "Unterminated string literal"⟩] := by
  constructor
  · intro s i j prev ch hin
    unfold scanChar
    split
    · split
      · simp_all
      · split <;> simp
    · split
      · simp_all
      · simp
  · decide

/-- C5 witness: with string mode active, a `(` neither pushes nor
reports. -/
theorem claim5_string_absorbs_w :
    (scanChar ⟨[], [], true, some '\"', some 1, some 0⟩ 2 0 none '(').stack = []
    ∧ (scanChar ⟨[], [], true, some '\"', some 1, some 0⟩ 2 0 none '(').errors = [] :=
  claim5_string_absorbs.1 ⟨[], [], true, some '\"', some 1, some 0⟩ 2 0 none '(' rfl

/-- C6: a stack entry is only removed by a same-type matching closer (one
step either keeps an entry or pops a matching top), every entry left on
the stack at the end of the scan is reported as an unmatched opening, and
a scan with no diagnostics ends with an empty stack. -/
theorem claim6_stack_invariant :
    (∀ t : String, lintDiags t = [] → (scanDoc t).stack = [])
    ∧ (∀ t : String, ∀ e ∈ (scanDoc t).stack,
        (⟨e.2.1, e.2.2, 1, unmatchedOpening e.1⟩ : Diag) ∈ lintDiags t)
    ∧ (∀ (s : ScanState) (i j : Nat) (prev : Option Char) (ch : Char), ∀ x ∈ s.stack,
        x ∈ (scanChar s i j prev ch).stack
        ∨ (s.stack.head? = some x ∧ pairs ch = some x.1
            ∧ (scanChar s i j prev ch).stack = s.stack.tail)) := by
  refine ⟨?_, ?_, ?_⟩
  · intro t h
    unfold lintDiags finishDiags at h
    obtain ⟨-, h2⟩ := List.append_eq_nil.1 h
    have := List.map_eq_nil_iff.1 h2
    simpa using this
  · intro t e he
    unfold lintDiags finishDiags
    exact List.mem_append_right _ (List.mem_map_of_mem _ (List.mem_reverse.2 he))
  · intro s i j prev ch x hx
    obtain ⟨-, hS, -⟩ := scanChar_shape s i j prev ch
    rcases hS with hS | hS | ⟨top, rest, hst, hp, hS⟩
    · exact Or.inl (hS ▸ hx)
    · exact Or.inl (hS ▸ List.mem_cons_of_mem _ hx)
    · rw [hst] at hx
      rcases List.mem_cons.1 hx with rfl | hx2
      · exact Or.inr ⟨by rw [hst]; rfl, hp, by rw [hS, hst]; rfl⟩
      · exact Or.inl (hS ▸ hx2)

/-- C6 witness: the clean scan of `"()"` ends with an empty stack; the
opener left by `"("` is reported; a `)` pops the matching `(` it faces. -/
theorem claim6_stack_invariant_w :
    (scanDoc "()").stack = []
    ∧ (⟨1, 0, 1, unmatchedOpening '('⟩ : Diag) ∈ lintDiags "("
    ∧ (('(', 1, 0) ∈ (scanChar ⟨[('(', 1, 0)], [], false, none, none, none⟩ 1 1
          (some '(') ')').stack
        ∨ ((⟨[('(', 1, 0)], [], false, none, none, none⟩ : ScanState).stack.head?
              = some ('(', 1, 0)
            ∧ pairs ')' = some ('(', 1, 0).1
            ∧ (scanChar ⟨[('(', 1, 0)], [], false, none, none, none⟩ 1 1
                (some '(') ')').stack
              = (⟨[('(', 1, 0)], [], false, none, none, none⟩ : ScanState).stack.tail)) :=
  ⟨claim6_stack_invariant.1 "()" (by decide),
   claim6_stack_invariant.2.1 "(" ('(', 1, 0) (by decide),
   claim6_stack_invariant.2.2 ⟨[('(', 1, 0)], [], false, none, none, none⟩ 1 1
     (some '(') ')' ('(', 1, 0) (by decide)⟩

/-- C7: the scan is total and bounded by the document length — with
exactly one fuel unit per character, `String.length t` units always
suffice and the fuelled scan returns the unfuelled result; the empty
input yields no diagnostics. -/
theorem claim7_total_bounded :
    (∀ t : String, lintFuel t.length t = some (lintDiags t)) ∧ lintDiags "" = [] := by
  refine ⟨?_, by decide⟩
  intro t
  unfold lintFuel lintDiags scanDoc
  rw [scanLinesFuel_eq (splitlines t.data) t.length 1 initState
    (le_trans (splitlines_sumLens t.data) (le_refl t.data.length))]

/-- C8: the diagnostic sequence is a pure function of the text — the
result of `lint_script` does not depend on the prior editor/console
state, and the diagnostics it leaves behind are exactly `lintDiags` of
the text, so repeated scans with any intervening state agree. -/
theorem claim8_pure_of_text :
    (∀ (t : String) (ide1 ide2 : IDEState),
        lint_script (some t) ide1 = lint_script (some t) ide2)
    ∧ (∀ (t : String) (ide : IDEState),
        ((lint_script (some t) ide).2).selections = lintDiags t) := by
  constructor
  · intro t ide1 ide2
    rfl
  · intro t ide
    unfold lint_script
    by_cases h : (lintDiags t).isEmpty
    · simp only [h, if_true]
      exact (List.isEmpty_iff.1 h).symm
    · simp only [h]
      rfl

/-- C9: `lint_script` returns `True` exactly when there is no current
editor or the scan produced no diagnostics, and `False` exactly when at
least one diagnostic was produced. -/
theorem claim9_return_flag :
    (∀ ide : IDEState, (lint_script none ide).1 = true)
    ∧ (∀ (t : String) (ide : IDEState),
        (lint_script (some t) ide).1 = true ↔ lintDiags t = [])
    ∧ (∀ (t : String) (ide : IDEState),
        (lint_script (some t) ide).1 = false ↔ lintDiags t ≠ []) := by
  refine ⟨fun ide => rfl, ?_, ?_⟩
  · intro t ide
    unfold lint_script
    by_cases h : (lintDiags t).isEmpty
    · simp [h, List.isEmpty_iff.1 h]
    · have hne : lintDiags t ≠ [] := fun heq => h (by simp [heq])
      simp [h, hne]
  · intro t ide
    unfold lint_script
    by_cases h : (lintDiags t).isEmpty
    · simp [h, List.isEmpty_iff.1 h]
    · have hne : lintDiags t ≠ [] := fun heq => h (by simp [heq])
      simp [h, hne]

/-- C9 witness: with no editor the call returns `True`; `"("` makes it
return `False`; `"()"` makes it return `True`. -/
theorem claim9_return_flag_w :
    (lint_script none ⟨"", []⟩).1 = true
    ∧ (lint_script (some "()") ⟨"", []⟩).1 = true
    ∧ (lint_script (some "(") ⟨"", []⟩).1 = false :=
  ⟨claim9_return_flag.1 ⟨"", []⟩,
   (claim9_return_flag.2.1 "()" ⟨"", []⟩).2 (by decide),
   (claim9_return_flag.2.2 "(" ⟨"", []⟩).2 (by decide)⟩

/-- C10: every scan emits at most one unterminated-string diagnostic,
whatever the document; a closed string earlier in the document
contributes none — for two literals of which only the second stays open,
exactly the open one is reported, at its own start. -/
theorem claim10_at_most_one_unterminated :
    (∀ t : String,
        (lintDiags t).countP (fun d => d.msg == "Unterminated string literal") ≤ 1)
    ∧ lintDiags "\"a\" \"b" = [⟨1, 4, 1, "Unterminated string literal"⟩] := by
  refine ⟨?_, by decide⟩
  intro t
  have hcl := scanDoc_errsClosing t
  unfold lintDiags finishDiags
  rw [List.countP_append]
  have h0 : (scanDoc t).errors.countP (fun d => d.msg == "Unterminated string literal")
      = 0 := by
    rw [List.countP_eq_zero]
    intro d hd
    obtain ⟨c, hc⟩ := hcl d hd
    simp [hc, unmatchedClosing_ne_unterminated c]
  have h1 : ((scanDoc t).stack.reverse.map
        (fun e => (⟨e.2.1, e.2.2, 1, unmatchedOpening e.1⟩ : Diag))).countP
        (fun d => d.msg == "Unterminated string literal") = 0 := by
    rw [List.countP_eq_zero]
    intro d hd
    obtain ⟨e, -, hde⟩ := List.mem_map.1 hd
    rw [← hde]
    simp [unmatchedOpening_ne_unterminated e.1]
  rw [h1]
  split
  · rw [List.countP_append, h0]
    simp [List.countP_cons]
  · rw [h0]
    simp
